import Mathlib

/-!
Verification development for the Ray_PBT trial scheduler.

Shallow embedding of `src/trial_scheduler.py` and `src/tuner.py`:
the two dispatch strategies (`round_robin_strategy`, `gpu_first_strategy`),
the scheduler tick (`assign_trial_to_worker`), the completion demultiplexer
(`handle_done_futures`), the `run` loop, and the Tuner's `mutation`.

Remote calls to workers (`get_available_slots`, `get_active_trials`,
`assign_trial`, `send_signal`) are modelled by reading a per-tick snapshot
of each worker (`Worker`) and recording the interaction in an explicit
effect trace (`Effect`), so that statements such as "no worker is queried"
or "a preempt signal naming trial t is sent" are expressible.

Python's `max(l, key=k)` / `min(l, key=k)` return the first element of `l`
attaining the optimum; they are embedded as `pyMax` / `pyMin`.

`TrialState`, `TrialStatus`, `WorkerType` and `TrialResult.get_quantile`
live in `trial_state.py` / `utils.py`, which are not present under `src/`;
those definitions are modelled from the spec and marked as such.
-/

namespace RayPBT

/-- Modelled from the spec: worker device kind, from `utils.WorkerType`
(file absent from `src/`). The source resets `worker_type` to Python
`None`; the scheduler-visible type is therefore `Option WorkerType`,
with `none` standing for NONE. -/
inductive WorkerType
  | CPU
  | GPU
deriving DecidableEq, Repr

/-- Modelled from the spec: trial lifecycle status, from `utils.TrialStatus`
(file absent from `src/`): PENDING, RUNNING, PAUSE, NEED_MUTATION,
TERMINATE. -/
inductive TrialStatus
  | PENDING
  | RUNNING
  | PAUSE
  | NEED_MUTATION
  | TERMINATE
deriving DecidableEq, Repr

/-- Hyperparameter record {lr, momentum, batch_size, model_type}.
Learning rate and momentum are embedded as rationals; `model_type` is an
opaque tag. -/
structure Hyperparameter where
  lr : ℚ
  momentum : ℚ
  batch_size : ℕ
  model_type : ℕ
deriving DecidableEq, Repr

/-- A reference to a `Hyperparameter` object on the Tuner-side heap.
Python passes the `hyperparameter` field by object reference inside one
actor; `Tuner.mutation` exploits exactly this, so the embedding keeps the
reference explicit (an index into a store). -/
abbrev HpRef := ℕ

/-- Modelled from the spec: `TrialState` (from `trial_state.py`, absent
from `src/`): id, hyperparameter (by reference), checkpoint (opaque,
optional), iteration, stop_iteration, phase, accuracy, status, worker_id
(-1 when unassigned), worker_type (`none` = NONE).
`device_iteration_count` is not needed by any claim and is omitted. -/
structure TrialState where
  id : ℕ
  hyperparameter : HpRef
  checkpoint : Option ℕ
  iteration : ℕ
  stop_iteration : ℕ
  phase : ℕ
  accuracy : ℚ
  status : TrialStatus
  worker_id : ℤ
  worker_type : Option WorkerType
deriving DecidableEq, Repr

instance : Inhabited TrialState :=
  ⟨⟨0, 0, none, 0, 0, 0, 0, TrialStatus.PENDING, -1, none⟩⟩

/-- Snapshot of one worker actor as the scheduler observes it through the
remote queries `get_available_slots` and `get_active_trials`.
`wid` is the worker's identity. -/
structure Worker where
  wid : ℕ
  available_slots : ℕ
  active_trials : List TrialState
deriving DecidableEq, Repr

/-- One observable interaction of a strategy with the worker pool:
a batched slot query over all CPU / GPU workers, a batched
`get_active_trials` query over all CPU workers, an `assign_trial`
dispatch, or a `send_signal` preemption naming a trial id. -/
inductive Effect
  | queryCpuSlots
  | queryGpuSlots
  | queryCpuActiveTrials
  | assign (worker : ℕ) (trial : ℕ)
  | preempt (worker : ℕ) (trial : ℕ)
deriving DecidableEq, Repr

/-- An in-flight execution handle: the `ObjectRef` returned by
`worker.assign_trial.remote(trial_state)`, identified by the worker it
was sent to and the trial it carries. -/
structure Handle where
  worker : ℕ
  trial : TrialState
deriving DecidableEq, Repr

/-- Result of one strategy invocation: the optional new handle, the
pending queue after any in-place removal, and the effect trace. -/
structure StratOut where
  handle : Option Handle
  pending : List TrialState
  effects : List Effect
deriving DecidableEq, Repr

/-- The first element of `a :: l` with maximal key: Python's
`max(l, key=k)` keeps its running candidate unless a later element has a
strictly greater key, so ties resolve to the earliest element. -/
def pyMax1 (k : α → ℕ) (a : α) : List α → α
  | [] => a
  | b :: bs => if k a < k (pyMax1 k b bs) then pyMax1 k b bs else a

/-- Python `max(l, key=k)`: the first element of `l` with maximal key;
`none` on the empty list (where Python raises). -/
def pyMax (k : α → ℕ) : List α → Option α
  | [] => none
  | x :: xs => some (pyMax1 k x xs)

/-- The first element of `a :: l` with minimal key. -/
def pyMin1 (k : α → ℕ) (a : α) : List α → α
  | [] => a
  | b :: bs => if k (pyMin1 k b bs) < k a then pyMin1 k b bs else a

/-- Python `min(l, key=k)`: the first element of `l` with minimal key;
`none` on the empty list (where Python raises). -/
def pyMin (k : α → ℕ) : List α → Option α
  | [] => none
  | x :: xs => some (pyMin1 k x xs)

/-- Python truthiness of `get_available_slots`: a worker is available
when its slot count is non-zero. -/
def has_slots (w : Worker) : Bool := decide (w.available_slots ≠ 0)

/-- The candidate filter of the round-robin CPU branch:
`trial.phase <= trial_phase.current_phase`. -/
def phase_ok (current_phase : ℕ) (t : TrialState) : Bool :=
  decide (t.phase ≤ current_phase)

/-- The GPU half of `round_robin_strategy` (`trial_scheduler.py` lines
67-83): query GPU slots, pick the available worker with most free slots
(ties by encounter order), pick the pending trial with minimum
iteration, remove it and assign.  Reached only with a non-empty pending
queue. -/
def round_robin_gpu (pending_trial_states : List TrialState)
    (gpu_workers : List Worker) : StratOut :=
  let availGpu := gpu_workers.filter has_slots
  match pyMax (fun w => w.available_slots) availGpu with
  | some w =>
    match pyMin (fun t => t.iteration) pending_trial_states with
    | some ts =>
      { handle := some ⟨w.wid, ts⟩,
        pending := pending_trial_states.erase ts,
        effects := [Effect.queryGpuSlots, Effect.assign w.wid ts.id] }
    | none =>
      { handle := none, pending := pending_trial_states,
        effects := [Effect.queryGpuSlots] }
  | none =>
    { handle := none, pending := pending_trial_states,
      effects := [Effect.queryGpuSlots] }

/-- `round_robin_strategy` (`trial_scheduler.py` lines 29-83).
Empty pending queue: return immediately, no queries.  Otherwise query
CPU slots; if some CPU worker has a free slot and some pending trial has
`phase ≤ current_phase`, assign the candidate with maximum iteration to
the first available CPU worker; otherwise fall through to the GPU half. -/
def round_robin_strategy (pending_trial_states : List TrialState)
    (gpu_workers cpu_workers : List Worker) (current_phase : ℕ) : StratOut :=
  if pending_trial_states.isEmpty then
    { handle := none, pending := pending_trial_states, effects := [] }
  else
    match cpu_workers.filter has_slots with
    | w :: _ =>
      let available_trials :=
        pending_trial_states.filter (phase_ok current_phase)
      match pyMax (fun t => t.iteration) available_trials with
      | some ts =>
        { handle := some ⟨w.wid, ts⟩,
          pending := pending_trial_states.erase ts,
          effects := [Effect.queryCpuSlots, Effect.assign w.wid ts.id] }
      | none =>
        let out := round_robin_gpu pending_trial_states gpu_workers
        { out with effects := Effect.queryCpuSlots :: out.effects }
    | [] =>
      let out := round_robin_gpu pending_trial_states gpu_workers
      { out with effects := Effect.queryCpuSlots :: out.effects }

/-- `gpu_first_strategy` (`trial_scheduler.py` lines 86-124).
Query GPU slots; with no available GPU worker return `None` at once.
With an available GPU worker: if the pending queue is non-empty, assign
the minimum-iteration pending trial to the GPU worker with most free
slots; otherwise query every CPU worker's active trials and send a
preempt signal naming the running CPU trial of globally minimum
iteration (per-worker minimum first, then minimum over workers). -/
def gpu_first_strategy (pending_trial_states : List TrialState)
    (gpu_workers cpu_workers : List Worker) : StratOut :=
  let availGpu := gpu_workers.filter has_slots
  match pyMax (fun w => w.available_slots) availGpu with
  | none =>
    { handle := none, pending := pending_trial_states,
      effects := [Effect.queryGpuSlots] }
  | some w =>
    if pending_trial_states.isEmpty then
      let running_cpu := cpu_workers.filterMap
        (fun cw => (pyMin (fun t => t.iteration) cw.active_trials).map
          (fun t => (cw, t)))
      match pyMin (fun p => p.2.iteration) running_cpu with
      | some (cw, ts) =>
        { handle := none, pending := pending_trial_states,
          effects := [Effect.queryGpuSlots, Effect.queryCpuActiveTrials,
                      Effect.preempt cw.wid ts.id] }
      | none =>
        { handle := none, pending := pending_trial_states,
          effects := [Effect.queryGpuSlots, Effect.queryCpuActiveTrials] }
    else
      match pyMin (fun t => t.iteration) pending_trial_states with
      | some ts =>
        { handle := some ⟨w.wid, ts⟩,
          pending := pending_trial_states.erase ts,
          effects := [Effect.queryGpuSlots, Effect.assign w.wid ts.id] }
      | none =>
        { handle := none, pending := pending_trial_states,
          effects := [Effect.queryGpuSlots] }

/-- Scheduler state (`TrialScheduler.__init__`): the pending and
completed queues, the in-flight handles, the snapshots pushed to the
Tuner via `record_trial_progress`, the population size
`trial_state_nums` frozen at construction, and the size of the fixed
GPU worker pool (`len(self.gpu_workers)`).  The unused
`waiting_trial_states` list is omitted. -/
structure SchedState where
  pending : List TrialState
  completed : List TrialState
  running_futures : List Handle
  recorded : List TrialState
  trial_state_nums : ℕ
  num_gpu_workers : ℕ
deriving DecidableEq, Repr

/-- The strategy-selection test of `assign_trial_to_worker`
(`trial_scheduler.py` lines 241-244):
`len(completed) <= trial_state_nums - len(gpu_workers) * 3`,
evaluated over the integers as Python does. -/
def use_round_robin (s : SchedState) : Bool :=
  decide ((s.completed.length : ℤ) ≤
    (s.trial_state_nums : ℤ) - (s.num_gpu_workers : ℤ) * 3)

inductive StrategyKind
  | roundRobin
  | gpuFirst
deriving DecidableEq, Repr

/-- Which dispatch strategy a tick selects. -/
def selected_strategy (s : SchedState) : StrategyKind :=
  if use_round_robin s then StrategyKind.roundRobin else StrategyKind.gpuFirst

/-- Environment input for one scheduler tick: the phase after the tick's
`update_phase` call (the phase computation lives in `trial_phase.py`,
outside the scheduler), the snapshots of the GPU and CPU worker pools
answering this tick's remote queries, and the tick's `ray.wait` outcome —
`some (i, ts)` when the i-th running future completed and resolved to
`ts`, `none` on a wait timeout. -/
structure TickInput where
  phase : ℕ
  gpu : List Worker
  cpu : List Worker
  wait : Option (ℕ × TrialState)

/-- `TrialScheduler.assign_trial_to_worker` (`trial_scheduler.py` lines
220-260), after its `update_phase` call.  Round-robin's returned future
is appended to `running_futures` when not `None`; in the gpu-first
branch the source calls `gpu_first_strategy(...)` as a bare statement,
so the handle it returns is discarded and `future` stays `None` —
only the strategy's in-place update of the pending queue persists. -/
def assign_trial_to_worker (inp : TickInput) (s : SchedState) : SchedState :=
  if use_round_robin s then
    let out := round_robin_strategy s.pending inp.gpu inp.cpu inp.phase
    { s with pending := out.pending,
             running_futures := s.running_futures ++ out.handle.toList }
  else
    let out := gpu_first_strategy s.pending inp.gpu inp.cpu
    { s with pending := out.pending }

/-- Sets a trial's status (`trial_state.status = ...`). -/
def set_status (st : TrialStatus) (t : TrialState) : TrialState :=
  { t with status := st }

/-- The post-routing reset of `handle_done_futures`:
`trial_state.worker_id = -1; trial_state.worker_type = None`. -/
def reset_worker (t : TrialState) : TrialState :=
  { t with worker_id := -1, worker_type := none }

/-- Outcome of routing one resolved `TrialState`: the updated pending
and completed queues and the snapshot pushed to the Tuner via
`record_trial_progress`. -/
structure RouteOut where
  pending : List TrialState
  completed : List TrialState
  recorded : TrialState
deriving DecidableEq, Repr

/-- The per-future body of `TrialScheduler.handle_done_futures`
(`trial_scheduler.py` lines 359-389).  `mutate` stands for the
`ray.get(tuner.mutation.remote(...))` round trip, which returns a fresh
deserialized `TrialState`.  The worker-field reset at lines 387-388
mutates the same object that was just appended to a queue, so the queue
entry carries the reset fields; the embedding appends the already-reset
value.  A status `RUNNING` result matches none of the four branches and
falls through to the reset and the `record_trial_progress` push. -/
def handle_one (mutate : TrialState → TrialState)
    (pending completed : List TrialState) (ts : TrialState) : RouteOut :=
  match ts.status with
  | TrialStatus.TERMINATE =>
    ⟨pending, completed ++ [reset_worker ts], reset_worker ts⟩
  | TrialStatus.NEED_MUTATION =>
    let m := set_status TrialStatus.PENDING (mutate ts)
    ⟨pending ++ [reset_worker m], completed, reset_worker m⟩
  | TrialStatus.PAUSE =>
    let m := set_status TrialStatus.PENDING ts
    ⟨pending ++ [reset_worker m], completed, reset_worker m⟩
  | TrialStatus.PENDING =>
    ⟨pending ++ [reset_worker ts], completed, reset_worker ts⟩
  | TrialStatus.RUNNING =>
    ⟨pending, completed, reset_worker ts⟩

/-- `TrialScheduler.handle_done_futures` over a list of resolved trial
states, accumulating the snapshots recorded to the Tuner. -/
def handle_done_futures (mutate : TrialState → TrialState)
    (pending completed recorded : List TrialState) :
    List TrialState → List TrialState × List TrialState × List TrialState
  | [] => (pending, completed, recorded)
  | ts :: rest =>
    let r := handle_one mutate pending completed ts
    handle_done_futures mutate r.pending r.completed
      (recorded ++ [r.recorded]) rest

/-- One iteration of the `run` loop body after the guard: assign, then
(when the tick's `ray.wait` returned a completion) drop that handle from
`running_futures` and route the resolved trial state. -/
def tick (mutate : TrialState → TrialState) (inp : TickInput)
    (s : SchedState) : SchedState :=
  let s1 := assign_trial_to_worker inp s
  match inp.wait with
  | none => s1
  | some (i, ts) =>
    let r := handle_one mutate s1.pending s1.completed ts
    { s1 with pending := r.pending, completed := r.completed,
              running_futures := s1.running_futures.eraseIdx i,
              recorded := s1.recorded ++ [r.recorded] }

/-- `run` loop iterated over a list of tick inputs. -/
def apply_ticks (mutate : TrialState → TrialState)
    (inputs : List TickInput) (s : SchedState) : SchedState :=
  inputs.foldl (fun s inp => tick mutate inp s) s

/-- What the epilogue after the `run` loop reports. -/
inductive RunReport
  | allTrialsComplete
deriving DecidableEq, Repr

/-- The epilogue of `TrialScheduler.run` (`trial_scheduler.py` lines
286-287): after the loop exits — by the guard or by the mid-tick break —
it unconditionally prints the iteration counts and logs the
"all trials finished" message.  There is no failure variant in the
source. -/
def run_epilogue (_ : SchedState) : RunReport :=
  RunReport.allTrialsComplete

/-- `TrialScheduler.run` (`trial_scheduler.py` lines 262-287), driven by
a finite list of tick environments as fuel: while
`len(completed) < trial_state_nums`, assign, break when both
`running_futures` and `pending_trial_states` are empty, otherwise wait
and route the tick's completion.  `none` means the environment list was
exhausted while the loop was still running. -/
def run (mutate : TrialState → TrialState) :
    List TickInput → SchedState → Option (SchedState × RunReport)
  | ticks, s =>
    if s.trial_state_nums ≤ s.completed.length then
      some (s, run_epilogue s)
    else
      match ticks with
      | [] => none
      | inp :: rest =>
        let s1 := assign_trial_to_worker inp s
        if s1.running_futures.isEmpty && s1.pending.isEmpty then
          some (s1, run_epilogue s1)
        else
          match inp.wait with
          | none => run mutate rest s1
          | some (i, ts) =>
            let r := handle_one mutate s1.pending s1.completed ts
            run mutate rest
              { s1 with pending := r.pending, completed := r.completed,
                        running_futures := s1.running_futures.eraseIdx i,
                        recorded := s1.recorded ++ [r.recorded] }

/-- Default trial used to give `List.getD` a fallback. -/
def dTrial : TrialState := default

/-- Write at one index of the hyperparameter store
(an in-place field update of a Python object). -/
def storeModify : List Hyperparameter → ℕ →
    (Hyperparameter → Hyperparameter) → List Hyperparameter
  | [], _, _ => []
  | h :: t, 0, f => f h :: t
  | h :: t, n + 1, f => h :: storeModify t n f

/-- Insertion by ascending accuracy. -/
def insertByAccuracy (t : TrialState) :
    List TrialState → List TrialState
  | [] => [t]
  | x :: xs =>
    if t.accuracy ≤ x.accuracy then t :: x :: xs
    else x :: insertByAccuracy t xs

/-- Sort a ledger by ascending accuracy. -/
def sortByAccuracy : List TrialState → List TrialState
  | [] => []
  | x :: xs => insertByAccuracy x (sortByAccuracy xs)

/-- Modelled from the spec: `TrialResult.get_quantile(0.25)`
(`trial_state.py`, absent from `src/`).  "let N = population size and
k = floor(N·ratio).  Sort ledger values by accuracy ascending.  Return
(values[:k], values[N-k:]).  If k == 0, lower is empty and upper is the
whole list."  With ratio = 0.25, k = N / 4.  The returned lists hold the
ledger's own trial records (Python slices copy references, not
objects). -/
def get_quantile (ledger : List TrialState) :
    List TrialState × List TrialState :=
  let sorted := sortByAccuracy ledger
  let n := ledger.length
  let k := n / 4
  if k = 0 then ([], sorted) else (sorted.take k, sorted.drop (n - k))

/-- `Tuner.mutation` (`tuner.py` lines 100-124) over an explicit
hyperparameter heap.  `choice` is the index drawn by
`random.choice(upper_quantile)`.  The source binds
`hyperparameter = chose_trial.hyperparameter` — a reference to the
donor's own object — and then performs `hyperparameter.lr *= 0.8` and
`hyperparameter.momentum *= 1.2` in place, so the update lands in the
store at the donor's reference; finally `ts.hyperparameter` is set to
that same reference and `ts.checkpoint` to the donor's checkpoint. -/
def mutation (store : List Hyperparameter) (ledger : List TrialState)
    (choice : ℕ) (ts : TrialState) : List Hyperparameter × TrialState :=
  let upper := (get_quantile ledger).2
  let chose_trial := upper.getD choice dTrial
  let r := chose_trial.hyperparameter
  let store' := storeModify store r
    (fun hp => { hp with lr := hp.lr * (4 / 5), momentum := hp.momentum * (6 / 5) })
  let ts' := { ts with hyperparameter := r, checkpoint := chose_trial.checkpoint }
  (store', ts')

/-! Basic facts about the Python `max` / `min` embeddings. -/

theorem pyMax1_mem (k : α → ℕ) (a : α) (l : List α) :
    pyMax1 k a l ∈ a :: l := by
  induction l generalizing a with
  | nil => simp [pyMax1]
  | cons b bs ih =>
    rw [pyMax1]
    split
    · exact List.mem_cons_of_mem a (ih b)
    · simp

theorem pyMax1_le (k : α → ℕ) (a : α) (l : List α) :
    ∀ y ∈ a :: l, k y ≤ k (pyMax1 k a l) := by
  induction l generalizing a with
  | nil => simp [pyMax1]
  | cons b bs ih =>
    intro y hy
    rw [pyMax1]
    rcases List.mem_cons.mp hy with rfl | hy
    · split
      · next h => exact le_of_lt h
      · exact le_rfl
    · split
      · next h => exact ih b y hy
      · next h => exact le_trans (ih b y hy) (not_lt.mp h)

theorem pyMax1_first (k : α → ℕ) (a : α) (l : List α) :
    ∃ pre post, a :: l = pre ++ pyMax1 k a l :: post ∧
      ∀ y ∈ pre, k y < k (pyMax1 k a l) := by
  induction l generalizing a with
  | nil => exact ⟨[], [], rfl, by simp⟩
  | cons b bs ih =>
    rw [pyMax1]
    split
    · next h =>
      obtain ⟨pre, post, heq, hpre⟩ := ih b
      refine ⟨a :: pre, post, by rw [heq, List.cons_append], ?_⟩
      intro y hy
      rcases List.mem_cons.mp hy with rfl | hy
      · exact h
      · exact hpre y hy
    · exact ⟨[], b :: bs, rfl, by simp⟩

theorem pyMax_eq_none_iff (k : α → ℕ) (l : List α) :
    pyMax k l = none ↔ l = [] := by
  cases l <;> simp [pyMax]

theorem pyMax_mem (k : α → ℕ) (l : List α) (x : α)
    (h : pyMax k l = some x) : x ∈ l := by
  cases l with
  | nil => simp [pyMax] at h
  | cons a xs =>
    rw [pyMax, Option.some_inj] at h
    rw [← h]
    exact pyMax1_mem k a xs

theorem pyMax_le (k : α → ℕ) (l : List α) (x : α)
    (h : pyMax k l = some x) : ∀ y ∈ l, k y ≤ k x := by
  cases l with
  | nil => simp [pyMax] at h
  | cons a xs =>
    rw [pyMax, Option.some_inj] at h
    rw [← h]
    exact pyMax1_le k a xs

theorem pyMax_first (k : α → ℕ) (l : List α) (x : α)
    (h : pyMax k l = some x) :
    ∃ pre post, l = pre ++ x :: post ∧ ∀ y ∈ pre, k y < k x := by
  cases l with
  | nil => simp [pyMax] at h
  | cons a xs =>
    rw [pyMax, Option.some_inj] at h
    rw [← h]
    exact pyMax1_first k a xs

theorem pyMin1_mem (k : α → ℕ) (a : α) (l : List α) :
    pyMin1 k a l ∈ a :: l := by
  induction l generalizing a with
  | nil => simp [pyMin1]
  | cons b bs ih =>
    rw [pyMin1]
    split
    · exact List.mem_cons_of_mem a (ih b)
    · simp

theorem pyMin1_le (k : α → ℕ) (a : α) (l : List α) :
    ∀ y ∈ a :: l, k (pyMin1 k a l) ≤ k y := by
  induction l generalizing a with
  | nil => simp [pyMin1]
  | cons b bs ih =>
    intro y hy
    rw [pyMin1]
    rcases List.mem_cons.mp hy with rfl | hy
    · split
      · next h => exact le_of_lt h
      · exact le_rfl
    · split
      · next h => exact ih b y hy
      · next h => exact le_trans (not_lt.mp h) (ih b y hy)

theorem pyMin_eq_none_iff (k : α → ℕ) (l : List α) :
    pyMin k l = none ↔ l = [] := by
  cases l <;> simp [pyMin]

theorem pyMin_mem (k : α → ℕ) (l : List α) (x : α)
    (h : pyMin k l = some x) : x ∈ l := by
  cases l with
  | nil => simp [pyMin] at h
  | cons a xs =>
    rw [pyMin, Option.some_inj] at h
    rw [← h]
    exact pyMin1_mem k a xs

theorem pyMin_le (k : α → ℕ) (l : List α) (x : α)
    (h : pyMin k l = some x) : ∀ y ∈ l, k x ≤ k y := by
  cases l with
  | nil => simp [pyMin] at h
  | cons a xs =>
    rw [pyMin, Option.some_inj] at h
    rw [← h]
    exact pyMin1_le k a xs

/-! Concrete inputs used by witnesses, counterexamples and code-bug
evaluations. -/

/-- A pending trial at iteration 2. -/
def trial_a : TrialState :=
  { id := 0, hyperparameter := 0, checkpoint := none, iteration := 2,
    stop_iteration := 10, phase := 0, accuracy := 1,
    status := TrialStatus.PENDING, worker_id := -1, worker_type := none }

/-- A GPU worker with one free slot and nothing running. -/
def worker_gpu_free : Worker := ⟨0, 1, []⟩

/-- A GPU worker with no free slot. -/
def worker_gpu_busy : Worker := ⟨0, 0, []⟩

/-- A CPU worker with no free slot, currently running `trial_a`. -/
def worker_cpu_running : Worker := ⟨1, 0, [trial_a]⟩

/-- A CPU worker with one free slot. -/
def worker_cpu_free : Worker := ⟨2, 1, []⟩

/-- Scheduler state with one pending trial, one GPU worker in the fixed
pool, a population of one, and nothing completed or in flight: the
strategy-selection test reads `0 ≤ 1 - 3`, which is false, so gpu-first
is the selected strategy. -/
def sched_one_pending : SchedState :=
  { pending := [trial_a], completed := [], running_futures := [],
    recorded := [], trial_state_nums := 1, num_gpu_workers := 1 }

/-- Tick environment offering `worker_gpu_free` and no CPU workers. -/
def tick_gpu_free : TickInput :=
  { phase := 0, gpu := [worker_gpu_free], cpu := [], wait := none }

/-- Scheduler state with an empty pending queue, nothing in flight,
nothing completed, and a population of one: the `run` loop's mid-tick
break fires on the first tick with zero trials completed. -/
def sched_empty_one : SchedState :=
  { pending := [], completed := [], running_futures := [],
    recorded := [], trial_state_nums := 1, num_gpu_workers := 0 }

/-- Tick environment with no workers and a wait timeout. -/
def tick_empty : TickInput :=
  { phase := 0, gpu := [], cpu := [], wait := none }

/-- The donor's hyperparameter object, at heap address 0. -/
def hp_donor : Hyperparameter := ⟨1/10, 9/10, 64, 0⟩

/-- The mutated trial's original hyperparameter object, at address 1. -/
def hp_other : Hyperparameter := ⟨1/2, 1/2, 128, 0⟩

/-- The ledger's single (hence top-quantile) trial, owning `hp_donor`. -/
def donor_trial : TrialState :=
  { id := 0, hyperparameter := 0, checkpoint := some 7, iteration := 5,
    stop_iteration := 10, phase := 1, accuracy := 9,
    status := TrialStatus.TERMINATE, worker_id := -1, worker_type := none }

/-- A trial returned with status NEED_MUTATION, owning `hp_other`. -/
def ts_needs_mutation : TrialState :=
  { id := 1, hyperparameter := 1, checkpoint := none, iteration := 3,
    stop_iteration := 10, phase := 0, accuracy := 0,
    status := TrialStatus.NEED_MUTATION, worker_id := 2,
    worker_type := some WorkerType.CPU }

/-- A completion that resolved with status RUNNING. -/
def trial_running : TrialState :=
  { trial_a with
    status := TrialStatus.RUNNING, worker_id := 3,
    worker_type := some WorkerType.GPU }

/-- A completion that resolved with status TERMINATE. -/
def trial_terminated : TrialState :=
  { trial_a with id := 9, status := TrialStatus.TERMINATE }

/-- A completion that resolved with status PAUSE. -/
def trial_paused : TrialState :=
  { trial_a with
    id := 4, iteration := 6, accuracy := 3, status := TrialStatus.PAUSE,
    worker_id := 2, worker_type := some WorkerType.CPU }

/-! Claim theorems. -/

/-- C10: `round_robin_strategy` invoked with an empty pending queue
returns no handle immediately: the pending queue is unchanged and the
effect trace is empty — no worker is queried for available slots and no
assignment or preemption is issued, whatever the worker pools are. -/
theorem round_robin_empty_pending (gpu_workers cpu_workers : List Worker)
    (current_phase : ℕ) :
    round_robin_strategy [] gpu_workers cpu_workers current_phase =
      { handle := none, pending := [], effects := [] } := rfl

/-- C1: code-bug evidence.  With gpu-first selected (population 1, one
GPU worker, nothing completed: `0 ≤ 1 - 3` fails), a free GPU slot and a
pending trial, `gpu_first_strategy` returns an execution handle for the
assigned trial, yet `assign_trial_to_worker` leaves `running_futures`
empty: the source calls the strategy as a bare statement and discards
the returned handle, while the trial is already removed from the pending
queue. -/
theorem gpu_first_handle_dropped :
    selected_strategy sched_one_pending = StrategyKind.gpuFirst ∧
    (gpu_first_strategy sched_one_pending.pending tick_gpu_free.gpu
        tick_gpu_free.cpu).handle = some ⟨0, trial_a⟩ ∧
    assign_trial_to_worker tick_gpu_free sched_one_pending =
      { sched_one_pending with pending := [] } ∧
    (assign_trial_to_worker tick_gpu_free sched_one_pending).running_futures
      = [] := by
  refine ⟨by decide, by decide, by decide, by decide⟩

/-- C2: counterexample.  When no GPU worker has a free slot
(`worker_gpu_busy` is the whole GPU pool) while a CPU worker is running
a trial, `gpu_first_strategy` returns immediately after the GPU slot
query: the CPU workers are never queried for their running trials and no
preempt signal is sent, contradicting the claim that this situation
triggers preemption. -/
theorem gpu_first_no_free_gpu_no_preempt :
    gpu_first_strategy [] [worker_gpu_busy] [worker_cpu_running] =
      { handle := none, pending := [],
        effects := [Effect.queryGpuSlots] } := by decide

/-- C3: code-bug evidence.  From a state with an empty pending queue,
nothing in flight and zero of one trial completed, the `run` loop's
mid-tick break exits the loop, and the epilogue reports the normal
"all trials complete" outcome — the source has no check of
`|completed| < trial_state_nums` and no failure report at all. -/
theorem run_reports_complete_when_trials_missing :
    run id [tick_empty] sched_empty_one =
      some (sched_empty_one, RunReport.allTrialsComplete) ∧
    sched_empty_one.completed.length < sched_empty_one.trial_state_nums := by
  refine ⟨by decide, by decide⟩

/-- C4: code-bug evidence.  `mutation` binds the donor's own
hyperparameter object and multiplies its `lr` by 0.8 and `momentum` by
1.2 in place: after `mutation`, the heap cell referenced by the donor's
ledger entry has changed from (lr = 1/10, momentum = 9/10) to
(lr = 2/25, momentum = 27/25), so the donor's ledger entry does not keep
its pre-mutation hyperparameter values. -/
theorem mutation_overwrites_donor_hyperparameter :
    [hp_donor, hp_other].get? donor_trial.hyperparameter =
      some ⟨1/10, 9/10, 64, 0⟩ ∧
    (mutation [hp_donor, hp_other] [donor_trial] 0 ts_needs_mutation).1.get?
        donor_trial.hyperparameter = some ⟨2/25, 27/25, 64, 0⟩ ∧
    (mutation [hp_donor, hp_other] [donor_trial] 0
        ts_needs_mutation).2.hyperparameter = donor_trial.hyperparameter := by
  refine ⟨rfl, ?_, rfl⟩
  norm_num [mutation, get_quantile, sortByAccuracy, insertByAccuracy,
    storeModify, dTrial, hp_donor, hp_other, donor_trial, ts_needs_mutation]

/-- C5: counterexample.  A completion with status RUNNING does not abort
the scheduler: routing it is a no-op on the queues, its snapshot is
still recorded to the Tuner, and a later completion in the same batch is
processed normally (here a TERMINATE completion is still retired to the
completed list after the RUNNING one was encountered). -/
theorem handle_done_running_processing_continues :
    handle_done_futures id [] [] [] [trial_running, trial_terminated] =
      ([], [reset_worker trial_terminated],
        [reset_worker trial_running, reset_worker trial_terminated]) := by
  decide

/-- C5 amended: a completion with status RUNNING matches no routing
branch: the pending and completed queues are unchanged, the trial's
worker fields are reset and its snapshot is pushed to the Tuner, and the
scheduler silently continues instead of aborting. -/
theorem handle_one_running_silent (mutate : TrialState → TrialState)
    (pending completed : List TrialState) (ts : TrialState)
    (h : ts.status = TrialStatus.RUNNING) :
    handle_one mutate pending completed ts =
      ⟨pending, completed, reset_worker ts⟩ := by
  simp [handle_one, h]

/-- Witness for `handle_one_running_silent` at a concrete RUNNING
completion. -/
theorem handle_one_running_silent_witness :
    trial_running.status = TrialStatus.RUNNING ∧
    handle_one id [] [] trial_running =
      ⟨[], [], reset_worker trial_running⟩ :=
  ⟨by decide, handle_one_running_silent id [] [] trial_running (by decide)⟩

/-- C9: the completion demultiplexer routes a resolved trial state by
status — TERMINATE appends it to the completed list; NEED_MUTATION
passes it through the Tuner's mutation, sets status to PENDING and
appends it to the pending queue; PAUSE sets status to PENDING and
appends it to the pending queue with iteration and accuracy preserved;
PENDING appends it back to the pending queue — and in every case the
routed snapshot has `worker_id = -1` and `worker_type = NONE` and is the
one pushed to the Tuner via `record_trial_progress` (the reset is
applied to the very object placed on the queue). -/
theorem handle_one_routing (mutate : TrialState → TrialState)
    (pending completed : List TrialState) (ts : TrialState) :
    (ts.status = TrialStatus.TERMINATE →
      handle_one mutate pending completed ts =
        ⟨pending, completed ++ [reset_worker ts], reset_worker ts⟩) ∧
    (ts.status = TrialStatus.NEED_MUTATION →
      handle_one mutate pending completed ts =
        ⟨pending ++ [reset_worker (set_status TrialStatus.PENDING (mutate ts))],
          completed,
          reset_worker (set_status TrialStatus.PENDING (mutate ts))⟩) ∧
    (ts.status = TrialStatus.PAUSE →
      handle_one mutate pending completed ts =
        ⟨pending ++ [reset_worker (set_status TrialStatus.PENDING ts)],
          completed, reset_worker (set_status TrialStatus.PENDING ts)⟩ ∧
      (reset_worker (set_status TrialStatus.PENDING ts)).iteration =
        ts.iteration ∧
      (reset_worker (set_status TrialStatus.PENDING ts)).accuracy =
        ts.accuracy) ∧
    (ts.status = TrialStatus.PENDING →
      handle_one mutate pending completed ts =
        ⟨pending ++ [reset_worker ts], completed, reset_worker ts⟩) ∧
    (handle_one mutate pending completed ts).recorded.worker_id = -1 ∧
    (handle_one mutate pending completed ts).recorded.worker_type = none := by
  refine ⟨fun h => by simp [handle_one, h], fun h => by simp [handle_one, h],
    fun h => ⟨by simp [handle_one, h], rfl, rfl⟩,
    fun h => by simp [handle_one, h], ?_, ?_⟩ <;>
    cases h : ts.status <;> simp [handle_one, h, reset_worker]

/-- Witness for `handle_one_routing`: each of the four status
hypotheses discharged at a concrete completion. -/
theorem handle_one_routing_witness :
    handle_one id [] [] trial_terminated =
      ⟨[], [reset_worker trial_terminated], reset_worker trial_terminated⟩ ∧
    handle_one id [] [] ts_needs_mutation =
      ⟨[reset_worker (set_status TrialStatus.PENDING ts_needs_mutation)], [],
        reset_worker (set_status TrialStatus.PENDING ts_needs_mutation)⟩ ∧
    handle_one id [] [] trial_paused =
      ⟨[reset_worker (set_status TrialStatus.PENDING trial_paused)], [],
        reset_worker (set_status TrialStatus.PENDING trial_paused)⟩ ∧
    handle_one id [] [] trial_a =
      ⟨[reset_worker trial_a], [], reset_worker trial_a⟩ :=
  ⟨(handle_one_routing id [] [] trial_terminated).1 (by decide),
    (handle_one_routing id [] [] ts_needs_mutation).2.1 (by decide),
    ((handle_one_routing id [] [] trial_paused).2.2.1 (by decide)).1,
    (handle_one_routing id [] [] trial_a).2.2.2.1 (by decide)⟩

theorem assign_trial_to_worker_frame (inp : TickInput) (s : SchedState) :
    (assign_trial_to_worker inp s).completed = s.completed ∧
    (assign_trial_to_worker inp s).trial_state_nums = s.trial_state_nums ∧
    (assign_trial_to_worker inp s).num_gpu_workers = s.num_gpu_workers := by
  unfold assign_trial_to_worker
  split <;> exact ⟨rfl, rfl, rfl⟩

theorem handle_one_completed_le (mutate : TrialState → TrialState)
    (pending completed : List TrialState) (ts : TrialState) :
    completed.length ≤ (handle_one mutate pending completed ts).completed.length := by
  cases h : ts.status <;> simp [handle_one, h]

theorem tick_frame (mutate : TrialState → TrialState) (inp : TickInput)
    (s : SchedState) :
    s.completed.length ≤ (tick mutate inp s).completed.length ∧
    (tick mutate inp s).trial_state_nums = s.trial_state_nums ∧
    (tick mutate inp s).num_gpu_workers = s.num_gpu_workers := by
  obtain ⟨hc, hn, hg⟩ := assign_trial_to_worker_frame inp s
  unfold tick
  cases hw : inp.wait with
  | none => exact ⟨le_of_eq (by rw [hc]), hn, hg⟩
  | some p =>
    obtain ⟨i, ts⟩ := p
    refine ⟨?_, hn, hg⟩
    calc s.completed.length
        = (assign_trial_to_worker inp s).completed.length := by rw [hc]
      _ ≤ _ := handle_one_completed_le mutate _ _ ts

theorem use_round_robin_tick_false (mutate : TrialState → TrialState)
    (inp : TickInput) (s : SchedState) (h : use_round_robin s = false) :
    use_round_robin (tick mutate inp s) = false := by
  obtain ⟨hle, hn, hg⟩ := tick_frame mutate inp s
  unfold use_round_robin at h ⊢
  rw [hn, hg]
  simp only [decide_eq_false_iff_not, not_le] at h ⊢
  have hle' : (s.completed.length : ℤ) ≤
      ((tick mutate inp s).completed.length : ℤ) := by exact_mod_cast hle
  linarith

theorem selected_gpuFirst_iff (s : SchedState) :
    selected_strategy s = StrategyKind.gpuFirst ↔
      use_round_robin s = false := by
  unfold selected_strategy
  cases h : use_round_robin s <;> simp [h]

/-- C8: a tick selects round-robin exactly when the number of completed
trials is at most `trial_state_nums − 3·|gpu_workers|` (over ℤ, as in
the source); the completed list's length never decreases across a tick;
and therefore once some state selects gpu-first, every state reached by
further ticks still selects gpu-first — round-robin never returns. -/
theorem strategy_switchover :
    (∀ s : SchedState, selected_strategy s = StrategyKind.roundRobin ↔
      (s.completed.length : ℤ) ≤
        (s.trial_state_nums : ℤ) - 3 * (s.num_gpu_workers : ℤ)) ∧
    (∀ (mutate : TrialState → TrialState) (inp : TickInput) (s : SchedState),
      s.completed.length ≤ (tick mutate inp s).completed.length) ∧
    (∀ (mutate : TrialState → TrialState) (inputs : List TickInput)
      (s : SchedState),
      selected_strategy s = StrategyKind.gpuFirst →
      selected_strategy (apply_ticks mutate inputs s) =
        StrategyKind.gpuFirst) := by
  refine ⟨?_, ?_, ?_⟩
  · intro s
    unfold selected_strategy use_round_robin
    by_cases h : ((s.completed.length : ℤ) ≤
        (s.trial_state_nums : ℤ) - (s.num_gpu_workers : ℤ) * 3)
    · rw [if_pos (decide_eq_true h)]
      exact iff_of_true rfl (by linarith)
    · rw [if_neg (fun hc => h (of_decide_eq_true hc))]
      exact iff_of_false (fun hc => StrategyKind.noConfusion hc)
        (fun hc => h (by linarith))
  · intro mutate inp s
    exact (tick_frame mutate inp s).1
  · intro mutate inputs s h
    induction inputs generalizing s with
    | nil => exact h
    | cons i rest ih =>
      have h' := use_round_robin_tick_false mutate i s
        ((selected_gpuFirst_iff s).mp h)
      exact ih (tick mutate i s) ((selected_gpuFirst_iff _).mpr h')

/-- Witness for `strategy_switchover`: the gpu-first hypothesis
discharged at a concrete state. -/
theorem strategy_switchover_witness :
    selected_strategy sched_one_pending = StrategyKind.gpuFirst ∧
    selected_strategy (apply_ticks id [tick_gpu_free] sched_one_pending) =
      StrategyKind.gpuFirst :=
  ⟨by decide,
    strategy_switchover.2.2 id [tick_gpu_free] sched_one_pending (by decide)⟩

theorem storeModify_get?_self (l : List Hyperparameter) (n : ℕ)
    (f : Hyperparameter → Hyperparameter) :
    (storeModify l n f).get? n = (l.get? n).map f := by
  induction l generalizing n with
  | nil => simp [storeModify]
  | cons h t ih =>
    cases n with
    | zero => simp [storeModify]
    | succ m => simpa [storeModify] using ih m

/-- C7: after `mutation(ts)` with donor index `choice` into the upper
quantile (the index `random.choice` draws, arbitrary below its length),
the donor is an element of the upper list of `get_quantile(0.25)`;
`ts.checkpoint` equals the donor's checkpoint; `ts.hyperparameter` is
the donor's hyperparameter object, whose stored value is the donor's
pre-mutation value with `lr` multiplied by 0.8 and `momentum` by 1.2;
and `ts`'s identity and progress fields are untouched. -/
theorem mutation_provenance (store : List Hyperparameter)
    (ledger : List TrialState) (ts : TrialState) (choice : ℕ)
    (h1 : choice < ((get_quantile ledger).2).length) :
    ((get_quantile ledger).2.getD choice dTrial) ∈ (get_quantile ledger).2 ∧
    (mutation store ledger choice ts).2.checkpoint =
      ((get_quantile ledger).2.getD choice dTrial).checkpoint ∧
    (mutation store ledger choice ts).2.hyperparameter =
      ((get_quantile ledger).2.getD choice dTrial).hyperparameter ∧
    (mutation store ledger choice ts).1.get?
        ((get_quantile ledger).2.getD choice dTrial).hyperparameter =
      (store.get?
          ((get_quantile ledger).2.getD choice dTrial).hyperparameter).map
        (fun hp => { hp with lr := hp.lr * (4 / 5),
                             momentum := hp.momentum * (6 / 5) }) ∧
    (mutation store ledger choice ts).2.id = ts.id ∧
    (mutation store ledger choice ts).2.iteration = ts.iteration ∧
    (mutation store ledger choice ts).2.accuracy = ts.accuracy ∧
    (mutation store ledger choice ts).2.status = ts.status := by
  refine ⟨?_, rfl, rfl, storeModify_get?_self store _ _, rfl, rfl, rfl, rfl⟩
  rw [List.getD_eq_getElem _ dTrial h1]
  exact List.getElem_mem h1

/-- Witness for `mutation_provenance`: the index bound discharged on a
one-trial ledger, whose upper quantile is the whole ledger. -/
theorem mutation_provenance_witness :
    0 < ((get_quantile [donor_trial]).2).length ∧
    (((get_quantile [donor_trial]).2.getD 0 dTrial) ∈
        (get_quantile [donor_trial]).2 ∧
      (mutation [hp_donor, hp_other] [donor_trial] 0
          ts_needs_mutation).2.checkpoint =
        ((get_quantile [donor_trial]).2.getD 0 dTrial).checkpoint ∧
      (mutation [hp_donor, hp_other] [donor_trial] 0
          ts_needs_mutation).2.hyperparameter =
        ((get_quantile [donor_trial]).2.getD 0 dTrial).hyperparameter ∧
      (mutation [hp_donor, hp_other] [donor_trial] 0 ts_needs_mutation).1.get?
          ((get_quantile [donor_trial]).2.getD 0 dTrial).hyperparameter =
        ([hp_donor, hp_other].get?
            ((get_quantile [donor_trial]).2.getD 0 dTrial).hyperparameter).map
          (fun hp => { hp with lr := hp.lr * (4 / 5),
                               momentum := hp.momentum * (6 / 5) }) ∧
      (mutation [hp_donor, hp_other] [donor_trial] 0
          ts_needs_mutation).2.id = ts_needs_mutation.id ∧
      (mutation [hp_donor, hp_other] [donor_trial] 0
          ts_needs_mutation).2.iteration = ts_needs_mutation.iteration ∧
      (mutation [hp_donor, hp_other] [donor_trial] 0
          ts_needs_mutation).2.accuracy = ts_needs_mutation.accuracy ∧
      (mutation [hp_donor, hp_other] [donor_trial] 0
          ts_needs_mutation).2.status = ts_needs_mutation.status) :=
  ⟨by decide,
    mutation_provenance [hp_donor, hp_other] [donor_trial]
      ts_needs_mutation 0 (by decide)⟩

theorem round_robin_gpu_no_slot (pending : List TrialState)
    (gpus : List Worker)
    (hg : gpus.filter has_slots = []) :
    round_robin_gpu pending gpus =
      { handle := none, pending := pending,
        effects := [Effect.queryGpuSlots] } := by
  have hmax : pyMax (fun w => w.available_slots)
      (gpus.filter has_slots) = none :=
    (pyMax_eq_none_iff _ _).mpr hg
  simp [round_robin_gpu, hmax]

theorem round_robin_gpu_assigns (pending : List TrialState)
    (gpus : List Worker) (hne : pending ≠ [])
    (hg : gpus.filter has_slots ≠ []) :
    ∃ w ts pre post,
      gpus.filter has_slots =
        pre ++ w :: post ∧
      (∀ g ∈ pre, g.available_slots < w.available_slots) ∧
      (∀ g ∈ gpus, g.available_slots ≠ 0 →
        g.available_slots ≤ w.available_slots) ∧
      ts ∈ pending ∧
      (∀ t' ∈ pending, ts.iteration ≤ t'.iteration) ∧
      round_robin_gpu pending gpus =
        { handle := some ⟨w.wid, ts⟩, pending := pending.erase ts,
          effects := [Effect.queryGpuSlots, Effect.assign w.wid ts.id] } := by
  cases hmax : pyMax (fun w => w.available_slots)
      (gpus.filter has_slots) with
  | none => exact absurd ((pyMax_eq_none_iff _ _).mp hmax) hg
  | some w =>
    cases hmin : pyMin (fun t => t.iteration) pending with
    | none => exact absurd ((pyMin_eq_none_iff _ _).mp hmin) hne
    | some ts =>
      obtain ⟨pre, post, hsplit, hpre⟩ := pyMax_first _ _ _ hmax
      refine ⟨w, ts, pre, post, hsplit, hpre, ?_, pyMin_mem _ _ _ hmin,
        pyMin_le _ _ _ hmin, ?_⟩
      · intro g hg0 hgslots
        exact pyMax_le _ _ _ hmax g
          (List.mem_filter.mpr ⟨hg0, by simpa [ has_slots] using hgslots⟩)
      · simp [round_robin_gpu, hmax, hmin]

theorem round_robin_fallthrough (pending : List TrialState)
    (gpus cpus : List Worker) (ph : ℕ) (hne : pending.isEmpty = false)
    (h : cpus.filter has_slots = [] ∨
      pending.filter (phase_ok ph) = []) :
    round_robin_strategy pending gpus cpus ph =
      { round_robin_gpu pending gpus with
        effects :=
          Effect.queryCpuSlots :: (round_robin_gpu pending gpus).effects } := by
  rcases h with h | h
  · simp [round_robin_strategy, hne, h]
  · cases hcpu : cpus.filter has_slots with
    | nil => simp [round_robin_strategy, hne, hcpu]
    | cons w ws =>
      have hmax : pyMax (fun t => t.iteration)
          (pending.filter (phase_ok ph)) = none :=
        (pyMax_eq_none_iff _ _).mpr h
      simp [round_robin_strategy, hne, hcpu, hmax]

/-- C6: behaviour of `round_robin_strategy` on a non-empty pending
queue.  (1) If the CPU pool has an available worker and some pending
trial's phase is within the current phase, the candidate with maximum
iteration is removed from pending and assigned to the first available
CPU worker.  (2) Otherwise, if some GPU worker has a free slot, the
available GPU worker with the most free slots — ties broken by encounter
order, witnessed by the `pre`/`post` split with strictly smaller
earlier keys — is assigned the pending trial with minimum iteration.
(3) Otherwise no handle is returned and the pending queue is
unchanged. -/
theorem round_robin_cases (pending : List TrialState)
    (gpus cpus : List Worker) (ph : ℕ) (hne : pending ≠ []) :
    (∀ w ws, cpus.filter has_slots = w :: ws →
      pending.filter (phase_ok ph) ≠ [] →
      ∃ ts, ts ∈ pending ∧ ts.phase ≤ ph ∧
        (∀ t' ∈ pending, t'.phase ≤ ph → t'.iteration ≤ ts.iteration) ∧
        round_robin_strategy pending gpus cpus ph =
          { handle := some ⟨w.wid, ts⟩, pending := pending.erase ts,
            effects := [Effect.queryCpuSlots, Effect.assign w.wid ts.id] }) ∧
    ((cpus.filter has_slots = [] ∨
      pending.filter (phase_ok ph) = []) →
      gpus.filter has_slots ≠ [] →
      ∃ w ts pre post,
        gpus.filter has_slots =
          pre ++ w :: post ∧
        (∀ g ∈ pre, g.available_slots < w.available_slots) ∧
        (∀ g ∈ gpus, g.available_slots ≠ 0 →
          g.available_slots ≤ w.available_slots) ∧
        ts ∈ pending ∧
        (∀ t' ∈ pending, ts.iteration ≤ t'.iteration) ∧
        round_robin_strategy pending gpus cpus ph =
          { handle := some ⟨w.wid, ts⟩, pending := pending.erase ts,
            effects := [Effect.queryCpuSlots, Effect.queryGpuSlots,
                        Effect.assign w.wid ts.id] }) ∧
    ((cpus.filter has_slots = [] ∨
      pending.filter (phase_ok ph) = []) →
      gpus.filter has_slots = [] →
      round_robin_strategy pending gpus cpus ph =
        { handle := none, pending := pending,
          effects := [Effect.queryCpuSlots, Effect.queryGpuSlots] }) := by
  have hpe : pending.isEmpty = false := by
    cases pending with
    | nil => exact absurd rfl hne
    | cons a l => rfl
  refine ⟨?_, ?_, ?_⟩
  · intro w ws hcpu hcand
    cases hmax : pyMax (fun t => t.iteration)
        (pending.filter (phase_ok ph)) with
    | none => exact absurd ((pyMax_eq_none_iff _ _).mp hmax) hcand
    | some ts =>
      have hmem := pyMax_mem _ _ _ hmax
      rw [List.mem_filter] at hmem
      refine ⟨ts, hmem.1, by simpa [phase_ok] using hmem.2, ?_, ?_⟩
      · intro t' ht' hph
        exact pyMax_le _ _ _ hmax t'
          (List.mem_filter.mpr ⟨ht', by simpa [phase_ok] using hph⟩)
      · simp [round_robin_strategy, hpe, hcpu, hmax]
  · intro hcpu hgpu
    obtain ⟨w, ts, pre, post, hsplit, hpre, hmaxall, hmem, hmin, heq⟩ :=
      round_robin_gpu_assigns pending gpus hne hgpu
    refine ⟨w, ts, pre, post, hsplit, hpre, hmaxall, hmem, hmin, ?_⟩
    rw [round_robin_fallthrough pending gpus cpus ph hpe hcpu, heq]
  · intro hcpu hgpu
    rw [round_robin_fallthrough pending gpus cpus ph hpe hcpu,
      round_robin_gpu_no_slot pending gpus hgpu]

/-- Witness for `round_robin_cases`: its hypotheses discharged at
concrete inputs exercising the CPU-assignment case. -/
theorem round_robin_cases_witness :
    ([trial_a] : List TrialState) ≠ [] ∧
    ([worker_cpu_free] : List Worker).filter has_slots = [worker_cpu_free] ∧
    ([trial_a] : List TrialState).filter (phase_ok 0) ≠ [] ∧
    (∃ ts, ts ∈ [trial_a] ∧ ts.phase ≤ 0 ∧
      (∀ t' ∈ [trial_a], t'.phase ≤ 0 → t'.iteration ≤ ts.iteration) ∧
      round_robin_strategy [trial_a] [] [worker_cpu_free] 0 =
        { handle := some ⟨worker_cpu_free.wid, ts⟩,
          pending := [trial_a].erase ts,
          effects := [Effect.queryCpuSlots,
                      Effect.assign worker_cpu_free.wid ts.id] }) :=
  ⟨by decide, by decide, by decide,
    (round_robin_cases [trial_a] [] [worker_cpu_free] 0 (by decide)).1
      worker_cpu_free [] (by decide) (by decide)⟩

/-- C2 amended: when no GPU worker has a free slot, `gpu_first_strategy`
returns no handle immediately without querying the CPU workers.  The
CPU-preemption path runs instead when some GPU worker has a free slot
and the pending queue is empty: then every CPU worker is queried for its
running trials and, if any exist, a preempt signal is sent naming the
running CPU trial with globally minimum iteration, and no handle is
returned. -/
theorem gpu_first_preemption (pending : List TrialState)
    (gpus cpus : List Worker) :
    (gpus.filter has_slots = [] →
      gpu_first_strategy pending gpus cpus =
        { handle := none, pending := pending,
          effects := [Effect.queryGpuSlots] }) ∧
    (gpus.filter has_slots ≠ [] →
      (∃ c ∈ cpus, c.active_trials ≠ []) →
      ∃ cw ts, cw ∈ cpus ∧ ts ∈ cw.active_trials ∧
        (∀ c' ∈ cpus, ∀ t' ∈ c'.active_trials,
          ts.iteration ≤ t'.iteration) ∧
        gpu_first_strategy [] gpus cpus =
          { handle := none, pending := [],
            effects := [Effect.queryGpuSlots, Effect.queryCpuActiveTrials,
                        Effect.preempt cw.wid ts.id] }) := by
  constructor
  · intro hg
    have hmax : pyMax (fun w => w.available_slots) (gpus.filter has_slots) =
        none := (pyMax_eq_none_iff _ _).mpr hg
    simp [gpu_first_strategy, hmax]
  · intro hg hrun
    cases hmax : pyMax (fun w => w.available_slots) (gpus.filter has_slots) with
    | none => exact absurd ((pyMax_eq_none_iff _ _).mp hmax) hg
    | some w =>
      obtain ⟨c, hc, hcne⟩ := hrun
      have hLne : cpus.filterMap (fun cw =>
          (pyMin (fun t => t.iteration) cw.active_trials).map
            (fun t => (cw, t))) ≠ [] := by
        cases hcmin : pyMin (fun t => t.iteration) c.active_trials with
        | none => exact absurd ((pyMin_eq_none_iff _ _).mp hcmin) hcne
        | some m =>
          exact List.ne_nil_of_mem
            (List.mem_filterMap.mpr ⟨c, hc, by rw [hcmin]; rfl⟩)
      cases hmin : pyMin (fun p => p.2.iteration)
          (cpus.filterMap (fun cw =>
            (pyMin (fun t => t.iteration) cw.active_trials).map
              (fun t => (cw, t)))) with
      | none => exact absurd ((pyMin_eq_none_iff _ _).mp hmin) hLne
      | some p =>
        obtain ⟨cw, ts⟩ := p
        have hpmem := pyMin_mem _ _ _ hmin
        rw [List.mem_filterMap] at hpmem
        obtain ⟨c', hc', hfc'⟩ := hpmem
        rw [Option.map_eq_some'] at hfc'
        obtain ⟨t0, ht0, heqp⟩ := hfc'
        injection heqp with h1 h2
        subst h1
        subst h2
        refine ⟨c', t0, hc', pyMin_mem _ _ _ ht0, ?_, ?_⟩
        · intro c2 hc2 t2 ht2
          cases hc2min : pyMin (fun t => t.iteration) c2.active_trials with
          | none =>
            rw [pyMin_eq_none_iff] at hc2min
            rw [hc2min] at ht2
            exact absurd ht2 (List.not_mem_nil t2)
          | some m2 =>
            have hmemL : (c2, m2) ∈ cpus.filterMap (fun cw =>
                (pyMin (fun t => t.iteration) cw.active_trials).map
                  (fun t => (cw, t))) :=
              List.mem_filterMap.mpr ⟨c2, hc2, by rw [hc2min]; rfl⟩
            have h1 := pyMin_le _ _ _ hmin (c2, m2) hmemL
            have h2 := pyMin_le _ _ _ hc2min t2 ht2
            exact le_trans h1 h2
        · simp [gpu_first_strategy, hmax, hmin]

/-- Witness for `gpu_first_preemption`: both hypotheses discharged at
concrete worker pools. -/
theorem gpu_first_preemption_witness :
    (([worker_gpu_busy] : List Worker).filter has_slots = [] ∧
      gpu_first_strategy [trial_a] [worker_gpu_busy] [worker_cpu_running] =
        { handle := none, pending := [trial_a],
          effects := [Effect.queryGpuSlots] }) ∧
    (([worker_gpu_free] : List Worker).filter has_slots ≠ [] ∧
      (∃ c ∈ [worker_cpu_running], c.active_trials ≠ []) ∧
      ∃ cw ts, cw ∈ [worker_cpu_running] ∧ ts ∈ cw.active_trials ∧
        (∀ c' ∈ [worker_cpu_running], ∀ t' ∈ c'.active_trials,
          ts.iteration ≤ t'.iteration) ∧
        gpu_first_strategy [] [worker_gpu_free] [worker_cpu_running] =
          { handle := none, pending := [],
            effects := [Effect.queryGpuSlots, Effect.queryCpuActiveTrials,
                        Effect.preempt cw.wid ts.id] }) :=
  ⟨⟨by decide,
      (gpu_first_preemption [trial_a] [worker_gpu_busy]
        [worker_cpu_running]).1 (by decide)⟩,
    ⟨by decide, by decide,
      (gpu_first_preemption [] [worker_gpu_free]
        [worker_cpu_running]).2 (by decide) (by decide)⟩⟩

end RayPBT
